import Mathlib

/-!
Shallow embedding of the sentiment-scoring core of `SentimentAnalyzer.tsx`:
the lexicons, the tokenizer shared by both entry points (line 64 / line 114:
`inputText.toLowerCase().replace(/[^\w\s]/g, '').split(/\s+/)`), the
classifier `analyzeSentiment` (lines 50-110) and the word tagger
`getWordSentiments` (lines 112-126).

Strings are modelled over their character lists; JavaScript number
arithmetic on scores and confidences is modelled over `ℚ` (all quantities
involved are small exact fractions).  JavaScript regex classes are modelled
for the ASCII range: `\w` is letter, digit or underscore; `\s` is modelled
by `Char.isWhitespace`.
-/

namespace SentimentAnalysis

/-- The characters kept by `replace(/[^\w\s]/g, '')`: JavaScript `\w`
(ASCII letter, digit or underscore) together with whitespace. -/
def keepChar (c : Char) : Bool :=
  c.isAlphanum || c == '_' || c.isWhitespace

/-- JavaScript `String.prototype.split(/\s+/)` on a character list: the
pieces between maximal whitespace runs.  As in JavaScript, a separator
match at the start or end of the string contributes an empty piece, and
the empty string yields the single piece `[]`. -/
def splitWs : List Char → List (List Char)
  | [] => [[]]
  | c :: cs =>
    let r := splitWs cs
    if c.isWhitespace then
      match cs with
      | [] => [] :: r
      | c2 :: _ => if c2.isWhitespace then r else [] :: r
    else
      match r with
      | p :: ps => (c :: p) :: ps
      | [] => [[c]]

/-- Line 64 / line 114:
`inputText.toLowerCase().replace(/[^\w\s]/g, '').split(/\s+/)`. -/
def tokenize (inputText : String) : List String :=
  (splitWs ((inputText.data.map Char.toLower).filter keepChar)).map List.asString

/-- Lines 27-34. -/
def positiveWords : List String :=
  ["amazing", "awesome", "brilliant", "excellent", "fantastic", "great", "happy",
   "incredible", "love", "perfect", "wonderful", "good", "best", "beautiful",
   "outstanding", "superb", "magnificent", "delightful", "pleasant", "satisfied",
   "impressive", "remarkable", "exceptional", "marvelous", "terrific", "fabulous",
   "gorgeous", "splendid", "stellar", "phenomenal", "enjoy", "like", "appreciate",
   "adore", "treasure", "cherish", "celebrate", "success", "victory", "triumph"]

/-- Lines 36-43. -/
def negativeWords : List String :=
  ["awful", "terrible", "horrible", "bad", "worst", "hate", "disgusting",
   "disappointing", "frustrating", "annoying", "angry", "sad", "depressing",
   "pathetic", "useless", "worthless", "dreadful", "appalling", "shocking",
   "disturbing", "offensive", "unacceptable", "ridiculous", "stupid", "idiotic",
   "dislike", "despise", "detest", "loathe", "failure", "disaster", "catastrophe",
   "nightmare", "regret", "mistake", "problem", "issue", "trouble", "difficulty"]

/-- Lines 45-48. -/
def neutralWords : List String :=
  ["okay", "fine", "average", "normal", "standard", "typical", "usual",
   "regular", "common", "ordinary", "moderate", "fair", "decent", "adequate"]

/-- Line 52's guard `!inputText.trim()`: JavaScript `trim` strips leading
and trailing whitespace, so the trimmed string is empty exactly when every
character of the input is whitespace (in particular when the input is
empty).  The condition is modelled by that characterisation directly. -/
def trimmedIsEmpty (inputText : String) : Bool :=
  inputText.data.all Char.isWhitespace

inductive Sentiment where
  | positive
  | negative
  | neutral
deriving DecidableEq, Repr

/-- The record `SentimentResult` (lines 4-12).  The `timestamp: number`
field is the call instant and carries no logic; it is omitted from the
model. -/
structure SentimentResult where
  sentiment : Sentiment
  confidence : ℚ
  positiveScore : ℚ
  negativeScore : ℚ
  neutralScore : ℚ
  wordCount : ℕ
deriving DecidableEq, Repr

/-- The record `WordSentiment` (lines 14-18). -/
structure WordSentiment where
  word : String
  sentiment : Sentiment
  score : ℤ
deriving DecidableEq, Repr

/-- The body of the `words.forEach` loop of lines 69-77: one word updates
the `(positiveCount, negativeCount, neutralCount)` accumulator. -/
def countStep (acc : ℕ × ℕ × ℕ) (word : String) : ℕ × ℕ × ℕ :=
  if word ∈ positiveWords then (acc.1 + 1, acc.2.1, acc.2.2)
  else if word ∈ negativeWords then (acc.1, acc.2.1 + 1, acc.2.2)
  else if word ∈ neutralWords then (acc.1, acc.2.1, acc.2.2 + 1)
  else acc

/-- Lines 65-77: the three counters after the `forEach` loop. -/
def sentimentCounts (words : List String) : ℕ × ℕ × ℕ :=
  words.foldl countStep (0, 0, 0)

/-- Lines 79-94: label selection and confidence from the three counts and
`totalWords` (`totalSentimentWords` is `positiveCount + negativeCount +
neutralCount` of line 79). -/
def sentimentAndConfidence (positiveCount negativeCount neutralCount totalWords : ℕ) :
    Sentiment × ℚ :=
  let totalSentimentWords := positiveCount + negativeCount + neutralCount
  if positiveCount > negativeCount ∧ positiveCount > neutralCount then
    (.positive, min (9/10) ((positiveCount : ℚ) / (totalWords : ℚ) * 2))
  else if negativeCount > positiveCount ∧ negativeCount > neutralCount then
    (.negative, min (9/10) ((negativeCount : ℚ) / (totalWords : ℚ) * 2))
  else
    (.neutral,
      if totalSentimentWords = 0 then 1/2
      else min (8/10) (3/10 + (neutralCount : ℚ) / (totalWords : ℚ)))

/-- The function `analyzeSentiment` (lines 50-110), the `classify`
operation of the spec.  Line 52's `!inputText.trim()` is the emptiness
test on the trimmed input; `Math.max(totalWords, 1)` of lines 96-97 is
`max totalWords 1`. -/
def analyzeSentiment (inputText : String) : SentimentResult :=
  if trimmedIsEmpty inputText then
    { sentiment := .neutral, confidence := 0, positiveScore := 0,
      negativeScore := 0, neutralScore := 1, wordCount := 0 }
  else
    let words := tokenize inputText
    let counts := sentimentCounts words
    let totalWords := words.length
    let sc := sentimentAndConfidence counts.1 counts.2.1 counts.2.2 totalWords
    let positiveScore : ℚ := (counts.1 : ℚ) / ((max totalWords 1 : ℕ) : ℚ)
    let negativeScore : ℚ := (counts.2.1 : ℚ) / ((max totalWords 1 : ℕ) : ℚ)
    let neutralScore : ℚ := 1 - positiveScore - negativeScore
    { sentiment := sc.1, confidence := sc.2, positiveScore := positiveScore,
      negativeScore := negativeScore, neutralScore := neutralScore,
      wordCount := totalWords }

/-- The function `getWordSentiments` (lines 112-126), the `tagWords`
operation of the spec: one `WordSentiment` per token, via the same
lexicon lookup chain. -/
def getWordSentiments (inputText : String) : List WordSentiment :=
  (tokenize inputText).map fun word =>
    if word ∈ positiveWords then { word := word, sentiment := .positive, score := 1 }
    else if word ∈ negativeWords then { word := word, sentiment := .negative, score := -1 }
    else if word ∈ neutralWords then { word := word, sentiment := .neutral, score := 0 }
    else { word := word, sentiment := .neutral, score := 0 }

/-- A word is counted as positive: it is in the positive lexicon.  Used
to characterise the counters of the `forEach` loop. -/
def hitPos (w : String) : Bool := decide (w ∈ positiveWords)

/-- A word is counted as negative: it reaches and passes the second test
of the lookup chain. -/
def hitNeg (w : String) : Bool := decide (w ∉ positiveWords ∧ w ∈ negativeWords)

/-- A word is counted as neutral: it reaches and passes the third test of
the lookup chain. -/
def hitNeu (w : String) : Bool :=
  decide (w ∉ positiveWords ∧ w ∉ negativeWords ∧ w ∈ neutralWords)

/-! ### Structural lemmas about the tokenizer -/

theorem splitWs_ne_nil : ∀ l : List Char, splitWs l ≠ []
  | [] => by simp [splitWs]
  | c :: cs => by
    have ih := splitWs_ne_nil cs
    unfold splitWs
    by_cases hc : c.isWhitespace
    · simp only [hc, if_true]
      match cs with
      | [] => simp
      | c2 :: cs' =>
        by_cases hc2 : c2.isWhitespace
        · simpa [hc2] using ih
        · simp [hc2]
    · simp only [hc, Bool.false_eq_true, if_false]
      match h : splitWs cs with
      | [] => exact absurd h ih
      | p :: ps => simp

theorem splitWs_length_pos (l : List Char) : 0 < (splitWs l).length :=
  List.length_pos.mpr (splitWs_ne_nil l)

theorem tokenize_length_pos (s : String) : 0 < (tokenize s).length := by
  simpa [tokenize] using splitWs_length_pos _

/-- Every character of every piece of `splitWs l` is a non-whitespace
character of `l`. -/
theorem splitWs_mem_chars :
    ∀ l : List Char, ∀ p ∈ splitWs l, ∀ c ∈ p, c ∈ l ∧ c.isWhitespace = false
  | [], p, hp, c, hc => by
    simp [splitWs] at hp
    subst hp
    simp at hc
  | c0 :: cs, p, hp, c, hc => by
    have ih := splitWs_mem_chars cs
    unfold splitWs at hp
    by_cases hc0 : c0.isWhitespace
    · simp only [hc0, if_true] at hp
      match cs with
      | [] =>
        simp [splitWs] at hp
        subst hp
        simp at hc
      | c2 :: cs' =>
        by_cases hc2 : c2.isWhitespace
        · simp only [hc2, if_true] at hp
          obtain ⟨hmem, hws⟩ := ih p hp c hc
          exact ⟨List.mem_cons_of_mem _ hmem, hws⟩
        · simp only [hc2, Bool.false_eq_true, if_false, List.mem_cons] at hp
          rcases hp with h | h
          · subst h; simp at hc
          · obtain ⟨hmem, hws⟩ := ih p h c hc
            exact ⟨List.mem_cons_of_mem _ hmem, hws⟩
    · simp only [hc0, Bool.false_eq_true, if_false] at hp
      match hsp : splitWs cs with
      | [] => exact absurd hsp (splitWs_ne_nil cs)
      | p0 :: ps =>
        rw [hsp] at hp
        simp only [List.mem_cons] at hp
        rcases hp with h | h
        · subst h
          rcases List.mem_cons.mp hc with h | h
          · subst h
            exact ⟨List.mem_cons_self _ _, by simpa using hc0⟩
          · obtain ⟨hmem, hws⟩ := ih p0 (hsp ▸ List.mem_cons_self _ _) c h
            exact ⟨List.mem_cons_of_mem _ hmem, hws⟩
        · obtain ⟨hmem, hws⟩ := ih p (hsp ▸ List.mem_cons_of_mem _ h) c hc
          exact ⟨List.mem_cons_of_mem _ hmem, hws⟩

/-- A non-empty all-whitespace character list is a single separator match:
`splitWs` yields exactly the two boundary empty pieces. -/
theorem splitWs_all_whitespace :
    ∀ l : List Char, l ≠ [] → (∀ c ∈ l, c.isWhitespace = true) → splitWs l = [[], []]
  | [], h, _ => absurd rfl h
  | c :: cs, _, hws => by
    have hc : c.isWhitespace = true := hws c (List.mem_cons_self _ _)
    unfold splitWs
    simp only [hc, if_true]
    match cs with
    | [] => simp [splitWs]
    | c2 :: cs' =>
      have hc2 : c2.isWhitespace = true := hws c2 (by simp)
      simp only [hc2, if_true]
      exact splitWs_all_whitespace (c2 :: cs') (by simp)
        (fun c hcm => hws c (List.mem_cons_of_mem _ hcm))

/-! ### Character-class lemmas -/

theorem char_toNat_ofNat (n : ℕ) (h : n.isValidChar) : (Char.ofNat n).toNat = n := by
  unfold Char.ofNat
  rw [dif_pos h]
  rfl

theorem char_isUpper_iff (c : Char) : c.isUpper = true ↔ 65 ≤ c.toNat ∧ c.toNat ≤ 90 := by
  simp only [Char.isUpper, Bool.and_eq_true, decide_eq_true_eq, ge_iff_le,
    UInt32.le_def, BitVec.le_def, Char.toNat, UInt32.toNat]
  constructor <;> intro h <;> exact ⟨by simpa using h.1, by simpa using h.2⟩

/-- Lowercasing a character never produces an ASCII uppercase letter. -/
theorem isUpper_toLower (c : Char) : (Char.toLower c).isUpper = false := by
  unfold Char.toLower
  by_cases h : 65 ≤ Char.toNat c ∧ Char.toNat c ≤ 90
  · rw [if_pos h]
    have hv : Nat.isValidChar (Char.toNat c + 32) := Or.inl (by omega)
    rw [Bool.eq_false_iff]
    intro hu
    have := (char_isUpper_iff _).mp hu
    rw [char_toNat_ofNat _ hv] at this
    omega
  · rw [if_neg h]
    rw [Bool.eq_false_iff]
    intro hu
    exact h ((char_isUpper_iff c).mp hu)

/-- Lowercasing fixes whitespace characters. -/
theorem toLower_of_whitespace (c : Char) (h : c.isWhitespace = true) :
    Char.toLower c = c := by
  simp only [Char.isWhitespace, Bool.or_eq_true, decide_eq_true_eq] at h
  rcases h with ((h | h) | h) | h <;> subst h <;> decide

/-! ### Counting lemmas -/

theorem foldl_countStep (ws : List String) : ∀ a : ℕ × ℕ × ℕ,
    ws.foldl countStep a =
      (a.1 + ws.countP hitPos, a.2.1 + ws.countP hitNeg, a.2.2 + ws.countP hitNeu) := by
  induction ws with
  | nil => intro a; simp
  | cons w ws ih =>
    intro a
    rw [List.foldl_cons, ih]
    by_cases hp : w ∈ positiveWords <;> by_cases hn : w ∈ negativeWords <;>
      by_cases hu : w ∈ neutralWords <;>
        simp [countStep, hitPos, hitNeg, hitNeu, hp, hn, hu, List.countP_cons] <;> omega

theorem sentimentCounts_eq (ws : List String) :
    sentimentCounts ws = (ws.countP hitPos, ws.countP hitNeg, ws.countP hitNeu) := by
  simpa using foldl_countStep ws (0, 0, 0)

theorem countP_hits_le_length (ws : List String) :
    ws.countP hitPos + ws.countP hitNeg + ws.countP hitNeu ≤ ws.length := by
  induction ws with
  | nil => simp
  | cons w ws ih =>
    simp only [List.countP_cons, List.length_cons]
    by_cases hp : w ∈ positiveWords <;> by_cases hn : w ∈ negativeWords <;>
      by_cases hu : w ∈ neutralWords <;>
        simp [hitPos, hitNeg, hitNeu, hp, hn, hu] <;> omega

theorem sentimentCounts_le (ws : List String) :
    (sentimentCounts ws).1 + (sentimentCounts ws).2.1 + (sentimentCounts ws).2.2
      ≤ ws.length := by
  rw [sentimentCounts_eq]
  exact countP_hits_le_length ws

/-! ### Unfolding the classifier on non-trivial input -/

theorem analyzeSentiment_of_not_empty (s : String) (h : trimmedIsEmpty s = false) :
    analyzeSentiment s =
      { sentiment := (sentimentAndConfidence (sentimentCounts (tokenize s)).1
          (sentimentCounts (tokenize s)).2.1 (sentimentCounts (tokenize s)).2.2
          (tokenize s).length).1,
        confidence := (sentimentAndConfidence (sentimentCounts (tokenize s)).1
          (sentimentCounts (tokenize s)).2.1 (sentimentCounts (tokenize s)).2.2
          (tokenize s).length).2,
        positiveScore := ((sentimentCounts (tokenize s)).1 : ℚ) / ((tokenize s).length : ℚ),
        negativeScore := ((sentimentCounts (tokenize s)).2.1 : ℚ) / ((tokenize s).length : ℚ),
        neutralScore := 1 - ((sentimentCounts (tokenize s)).1 : ℚ) / ((tokenize s).length : ℚ)
          - ((sentimentCounts (tokenize s)).2.1 : ℚ) / ((tokenize s).length : ℚ),
        wordCount := (tokenize s).length } := by
  have hmax : max (tokenize s).length 1 = (tokenize s).length :=
    Nat.max_eq_left (tokenize_length_pos s)
  simp [analyzeSentiment, h, hmax]

theorem sentimentCounts_comp_le (ws : List String) :
    (sentimentCounts ws).1 ≤ ws.length ∧ (sentimentCounts ws).2.1 ≤ ws.length ∧
      (sentimentCounts ws).1 + (sentimentCounts ws).2.1 ≤ ws.length := by
  have h := sentimentCounts_le ws
  omega

/-! ### The label and confidence of lines 82-94 -/

theorem sentimentAndConfidence_label (pc nc uc tw : ℕ) :
    ((sentimentAndConfidence pc nc uc tw).1 = .positive ↔ pc > nc ∧ pc > uc) ∧
    ((sentimentAndConfidence pc nc uc tw).1 = .negative ↔ nc > pc ∧ nc > uc) ∧
    (¬(pc > nc ∧ pc > uc) → ¬(nc > pc ∧ nc > uc) →
      (sentimentAndConfidence pc nc uc tw).1 = .neutral) := by
  simp only [sentimentAndConfidence]
  split_ifs with h1 h2 h3 <;> refine ⟨?_, ?_, fun hA hB => ?_⟩ <;> (try simp) <;> omega

theorem sentimentAndConfidence_spec (pc nc uc tw : ℕ) :
    ((sentimentAndConfidence pc nc uc tw).1 = .positive →
      (sentimentAndConfidence pc nc uc tw).2 = min (9/10) ((pc : ℚ) / (tw : ℚ) * 2)) ∧
    ((sentimentAndConfidence pc nc uc tw).1 = .negative →
      (sentimentAndConfidence pc nc uc tw).2 = min (9/10) ((nc : ℚ) / (tw : ℚ) * 2)) ∧
    ((sentimentAndConfidence pc nc uc tw).1 = .neutral → pc + nc + uc = 0 →
      (sentimentAndConfidence pc nc uc tw).2 = 1/2) ∧
    ((sentimentAndConfidence pc nc uc tw).1 = .neutral → pc + nc + uc ≠ 0 →
      (sentimentAndConfidence pc nc uc tw).2 = min (8/10) (3/10 + (uc : ℚ) / (tw : ℚ))) ∧
    0 ≤ (sentimentAndConfidence pc nc uc tw).2 ∧
    (sentimentAndConfidence pc nc uc tw).2 ≤ 9/10 ∧
    ((sentimentAndConfidence pc nc uc tw).1 = .neutral →
      (sentimentAndConfidence pc nc uc tw).2 ≤ 8/10) := by
  have hdiv : (0 : ℚ) ≤ (uc : ℚ) / (tw : ℚ) :=
    div_nonneg (Nat.cast_nonneg uc) (Nat.cast_nonneg tw)
  simp only [sentimentAndConfidence]
  split_ifs with h1 h2 h3
  · refine ⟨fun _ => rfl, fun hx => absurd hx (by decide), fun hx => absurd hx (by decide),
      fun hx => absurd hx (by decide), ?_, min_le_left _ _, fun hx => absurd hx (by decide)⟩
    exact le_min (by norm_num)
      (mul_nonneg (div_nonneg (Nat.cast_nonneg pc) (Nat.cast_nonneg tw)) (by norm_num))
  · refine ⟨fun hx => absurd hx (by decide), fun _ => rfl, fun hx => absurd hx (by decide),
      fun hx => absurd hx (by decide), ?_, min_le_left _ _, fun hx => absurd hx (by decide)⟩
    exact le_min (by norm_num)
      (mul_nonneg (div_nonneg (Nat.cast_nonneg nc) (Nat.cast_nonneg tw)) (by norm_num))
  · exact ⟨fun hx => absurd hx (by decide), fun hx => absurd hx (by decide),
      fun _ _ => rfl, fun _ hx => absurd h3 hx, by norm_num, by norm_num, fun _ => by norm_num⟩
  · refine ⟨fun hx => absurd hx (by decide), fun hx => absurd hx (by decide),
      fun _ hx => absurd hx h3, fun _ _ => rfl, ?_, ?_, fun _ => min_le_left _ _⟩
    · exact le_min (by norm_num) (by linarith)
    · exact (min_le_left _ _).trans (by norm_num)

/-! ### The claims -/

/-- C1: for every input whose trimmed text is non-empty, `classify` labels
the text positive iff `positiveCount > negativeCount` and
`positiveCount > neutralCount`, negative iff the symmetric strict
majorities hold, and neutral in every other case (all ties included); in
particular `classify "good bad"` is labelled neutral. -/
theorem classify_label_strict_majority (s : String) (h : trimmedIsEmpty s = false) :
    ((analyzeSentiment s).sentiment = .positive ↔
      (sentimentCounts (tokenize s)).1 > (sentimentCounts (tokenize s)).2.1 ∧
        (sentimentCounts (tokenize s)).1 > (sentimentCounts (tokenize s)).2.2) ∧
    ((analyzeSentiment s).sentiment = .negative ↔
      (sentimentCounts (tokenize s)).2.1 > (sentimentCounts (tokenize s)).1 ∧
        (sentimentCounts (tokenize s)).2.1 > (sentimentCounts (tokenize s)).2.2) ∧
    (¬((sentimentCounts (tokenize s)).1 > (sentimentCounts (tokenize s)).2.1 ∧
        (sentimentCounts (tokenize s)).1 > (sentimentCounts (tokenize s)).2.2) →
      ¬((sentimentCounts (tokenize s)).2.1 > (sentimentCounts (tokenize s)).1 ∧
        (sentimentCounts (tokenize s)).2.1 > (sentimentCounts (tokenize s)).2.2) →
      (analyzeSentiment s).sentiment = .neutral) ∧
    (analyzeSentiment "good bad").sentiment = .neutral := by
  rw [analyzeSentiment_of_not_empty s h]
  exact ⟨(sentimentAndConfidence_label _ _ _ _).1, (sentimentAndConfidence_label _ _ _ _).2.1,
    (sentimentAndConfidence_label _ _ _ _).2.2, by decide⟩

theorem classify_label_strict_majority_witness :
    trimmedIsEmpty "good bad" = false ∧
    (analyzeSentiment "good bad").sentiment = .neutral ∧
    (analyzeSentiment "good").sentiment = .positive :=
  ⟨by decide,
   (classify_label_strict_majority "good bad" (by decide)).2.2.1 (by decide) (by decide),
   (classify_label_strict_majority "good" (by decide)).1.mpr (by decide)⟩

/-- C2: for every input whose trim is empty (all-whitespace, including the
empty string), `classify` returns exactly the empty-input default:
neutral, confidence 0, positiveScore 0, negativeScore 0, neutralScore 1,
wordCount 0. -/
theorem classify_empty_input_default (s : String) (h : trimmedIsEmpty s = true) :
    analyzeSentiment s =
      { sentiment := .neutral, confidence := 0, positiveScore := 0,
        negativeScore := 0, neutralScore := 1, wordCount := 0 } := by
  simp [analyzeSentiment, h]

theorem classify_empty_input_default_witness :
    (trimmedIsEmpty "" = true ∧ analyzeSentiment "" =
      { sentiment := .neutral, confidence := 0, positiveScore := 0,
        negativeScore := 0, neutralScore := 1, wordCount := 0 }) ∧
    (trimmedIsEmpty "   " = true ∧ analyzeSentiment "   " =
      { sentiment := .neutral, confidence := 0, positiveScore := 0,
        negativeScore := 0, neutralScore := 1, wordCount := 0 }) :=
  ⟨⟨by decide, classify_empty_input_default "" (by decide)⟩,
   ⟨by decide, classify_empty_input_default "   " (by decide)⟩⟩

/-- C3: for every input whose trimmed text is non-empty, the confidence is
`min 0.9 (positiveCount/totalWords * 2)` for a positive label,
`min 0.9 (negativeCount/totalWords * 2)` for a negative label, `0.5` for a
neutral label with no lexicon hits at all, and
`min 0.8 (0.3 + neutralCount/totalWords)` otherwise; consequently it lies
in `[0, 0.9]` and is at most `0.8` whenever the label is neutral. -/
theorem classify_confidence_formula (s : String) (h : trimmedIsEmpty s = false) :
    ((analyzeSentiment s).sentiment = .positive → (analyzeSentiment s).confidence =
      min (9/10) (((sentimentCounts (tokenize s)).1 : ℚ) / ((tokenize s).length : ℚ) * 2)) ∧
    ((analyzeSentiment s).sentiment = .negative → (analyzeSentiment s).confidence =
      min (9/10) (((sentimentCounts (tokenize s)).2.1 : ℚ) / ((tokenize s).length : ℚ) * 2)) ∧
    ((analyzeSentiment s).sentiment = .neutral →
      (sentimentCounts (tokenize s)).1 + (sentimentCounts (tokenize s)).2.1 +
        (sentimentCounts (tokenize s)).2.2 = 0 →
      (analyzeSentiment s).confidence = 1/2) ∧
    ((analyzeSentiment s).sentiment = .neutral →
      (sentimentCounts (tokenize s)).1 + (sentimentCounts (tokenize s)).2.1 +
        (sentimentCounts (tokenize s)).2.2 ≠ 0 →
      (analyzeSentiment s).confidence =
        min (8/10) (3/10 + ((sentimentCounts (tokenize s)).2.2 : ℚ) / ((tokenize s).length : ℚ))) ∧
    0 ≤ (analyzeSentiment s).confidence ∧ (analyzeSentiment s).confidence ≤ 9/10 ∧
    ((analyzeSentiment s).sentiment = .neutral → (analyzeSentiment s).confidence ≤ 8/10) := by
  rw [analyzeSentiment_of_not_empty s h]
  exact sentimentAndConfidence_spec _ _ _ _

theorem classify_confidence_formula_witness :
    trimmedIsEmpty "good bad" = false ∧
    (analyzeSentiment "good bad").confidence =
      min (8/10) (3/10 + ((sentimentCounts (tokenize "good bad")).2.2 : ℚ) /
        ((tokenize "good bad").length : ℚ)) ∧
    0 ≤ (analyzeSentiment "good bad").confidence ∧
    (analyzeSentiment "good bad").confidence ≤ 9/10 :=
  ⟨by decide,
   (classify_confidence_formula "good bad" (by decide)).2.2.2.1 (by decide) (by decide),
   (classify_confidence_formula "good bad" (by decide)).2.2.2.2.1,
   (classify_confidence_formula "good bad" (by decide)).2.2.2.2.2.1⟩

/-- C4: for every input, the three scores sum to 1; on non-empty trimmed
input `positiveScore = positiveCount/totalWords`,
`negativeScore = negativeCount/totalWords` and `neutralScore` is the
residual `1 - positiveScore - negativeScore`; on empty-trim input
`neutralScore = 1` exactly. -/
theorem classify_scores_partition (s : String) :
    ((analyzeSentiment s).positiveScore + (analyzeSentiment s).negativeScore +
      (analyzeSentiment s).neutralScore = 1) ∧
    (trimmedIsEmpty s = false →
      (analyzeSentiment s).positiveScore =
        ((sentimentCounts (tokenize s)).1 : ℚ) / ((tokenize s).length : ℚ) ∧
      (analyzeSentiment s).negativeScore =
        ((sentimentCounts (tokenize s)).2.1 : ℚ) / ((tokenize s).length : ℚ) ∧
      (analyzeSentiment s).neutralScore =
        1 - (analyzeSentiment s).positiveScore - (analyzeSentiment s).negativeScore) ∧
    (trimmedIsEmpty s = true → (analyzeSentiment s).neutralScore = 1) := by
  by_cases h : trimmedIsEmpty s
  · rw [show analyzeSentiment s =
      { sentiment := .neutral, confidence := 0, positiveScore := 0,
        negativeScore := 0, neutralScore := 1, wordCount := 0 } by simp [analyzeSentiment, h]]
    refine ⟨by norm_num, fun hf => ?_, fun _ => rfl⟩
    rw [h] at hf
    exact absurd hf (by decide)
  · rw [analyzeSentiment_of_not_empty s (Bool.eq_false_iff.mpr h)]
    refine ⟨by ring, fun _ => ⟨rfl, rfl, rfl⟩, fun ht => ?_⟩
    rw [ht] at h
    exact absurd rfl h

theorem classify_scores_partition_witness :
    ((analyzeSentiment "good bad").positiveScore + (analyzeSentiment "good bad").negativeScore +
      (analyzeSentiment "good bad").neutralScore = 1) ∧
    (analyzeSentiment "good bad").positiveScore =
      ((sentimentCounts (tokenize "good bad")).1 : ℚ) / ((tokenize "good bad").length : ℚ) ∧
    (analyzeSentiment "").neutralScore = 1 :=
  ⟨(classify_scores_partition "good bad").1,
   ((classify_scores_partition "good bad").2.1 (by decide)).1,
   (classify_scores_partition "").2.2 (by decide)⟩

/-- C9: both entry points are total and well-formed on every string: the
tokenization is never empty (so no division by zero occurs: every
denominator `totalWords` used on the non-empty branch is positive),
`tagWords` yields one tag per token, and every score and the confidence of
`classify` lie in `[0, 1]`. -/
theorem classify_tagWords_total_wellformed (s : String) :
    0 < (tokenize s).length ∧
    (getWordSentiments s).length = (tokenize s).length ∧
    0 ≤ (analyzeSentiment s).confidence ∧ (analyzeSentiment s).confidence ≤ 1 ∧
    0 ≤ (analyzeSentiment s).positiveScore ∧ (analyzeSentiment s).positiveScore ≤ 1 ∧
    0 ≤ (analyzeSentiment s).negativeScore ∧ (analyzeSentiment s).negativeScore ≤ 1 ∧
    0 ≤ (analyzeSentiment s).neutralScore ∧ (analyzeSentiment s).neutralScore ≤ 1 := by
  refine ⟨tokenize_length_pos s, by simp [getWordSentiments], ?_⟩
  by_cases h : trimmedIsEmpty s
  · rw [show analyzeSentiment s =
      { sentiment := .neutral, confidence := 0, positiveScore := 0,
        negativeScore := 0, neutralScore := 1, wordCount := 0 } by simp [analyzeSentiment, h]]
    norm_num
  · rw [analyzeSentiment_of_not_empty s (Bool.eq_false_iff.mpr h)]
    obtain ⟨hb0, hb9, -⟩ := (sentimentAndConfidence_spec (sentimentCounts (tokenize s)).1
      (sentimentCounts (tokenize s)).2.1 (sentimentCounts (tokenize s)).2.2
      (tokenize s).length).2.2.2.2
    obtain ⟨hple, hnle, hsum⟩ := sentimentCounts_comp_le (tokenize s)
    have htw : (0 : ℚ) < ((tokenize s).length : ℚ) :=
      Nat.cast_pos.mpr (tokenize_length_pos s)
    have hp0 : (0 : ℚ) ≤ ((sentimentCounts (tokenize s)).1 : ℚ) / ((tokenize s).length : ℚ) :=
      div_nonneg (Nat.cast_nonneg _) (Nat.cast_nonneg _)
    have hn0 : (0 : ℚ) ≤ ((sentimentCounts (tokenize s)).2.1 : ℚ) / ((tokenize s).length : ℚ) :=
      div_nonneg (Nat.cast_nonneg _) (Nat.cast_nonneg _)
    have hp1 : ((sentimentCounts (tokenize s)).1 : ℚ) / ((tokenize s).length : ℚ) ≤ 1 :=
      (div_le_one htw).mpr (Nat.cast_le.mpr hple)
    have hn1 : ((sentimentCounts (tokenize s)).2.1 : ℚ) / ((tokenize s).length : ℚ) ≤ 1 :=
      (div_le_one htw).mpr (Nat.cast_le.mpr hnle)
    have hpn : ((sentimentCounts (tokenize s)).1 : ℚ) / ((tokenize s).length : ℚ) +
        ((sentimentCounts (tokenize s)).2.1 : ℚ) / ((tokenize s).length : ℚ) ≤ 1 := by
      rw [div_add_div_same]
      refine (div_le_one htw).mpr ?_
      calc ((sentimentCounts (tokenize s)).1 : ℚ) + ((sentimentCounts (tokenize s)).2.1 : ℚ)
          = (((sentimentCounts (tokenize s)).1 + (sentimentCounts (tokenize s)).2.1 : ℕ) : ℚ) := by
            push_cast; ring
        _ ≤ ((tokenize s).length : ℚ) := Nat.cast_le.mpr hsum
    exact ⟨hb0, hb9.trans (by norm_num), hp0, hp1, hn0, hn1, by linarith, by linarith⟩

/-- C5 counterexample: the tokenizer does not produce zero tokens for an
empty or whitespace-only input.  As in JavaScript,
`"".split(/\s+/) = [""]` and `"   ".split(/\s+/) = ["", ""]`, so
`tagWords` of such inputs is never the empty sequence. -/
theorem tokenizer_empty_input_not_zero_tokens :
    tokenize "" = [""] ∧ tokenize "   " = ["", ""] ∧
    getWordSentiments "" ≠ [] ∧ (getWordSentiments "").length = 1 ∧
    getWordSentiments "   " ≠ [] ∧ (getWordSentiments "   ").length = 2 := by
  decide

/-- C5 (amended): the empty input tokenizes to the single empty token, and
a non-empty whitespace-only input is one separator match whose two
boundary pieces are empty tokens; `tagWords` therefore returns one
(respectively two) neutral score-0 tags with empty word, never the empty
sequence. -/
theorem tokenizer_whitespace_only_tokens (s : String) (h1 : s.data ≠ [])
    (h2 : ∀ c ∈ s.data, c.isWhitespace = true) :
    tokenize s = ["", ""] ∧
    getWordSentiments s = [{ word := "", sentiment := .neutral, score := 0 },
      { word := "", sentiment := .neutral, score := 0 }] ∧
    tokenize "" = [""] ∧
    getWordSentiments "" = [{ word := "", sentiment := .neutral, score := 0 }] := by
  have hmap : s.data.map Char.toLower = s.data := by
    rw [List.map_congr_left (fun c hc => toLower_of_whitespace c (h2 c hc))]
    exact List.map_id _
  have hfilter : s.data.filter keepChar = s.data :=
    List.filter_eq_self.mpr fun c hc => by simp [keepChar, h2 c hc]
  have htok : tokenize s = ["", ""] := by
    rw [tokenize, hmap, hfilter, splitWs_all_whitespace s.data h1 h2]
    rfl
  refine ⟨htok, ?_, by decide, by decide⟩
  rw [getWordSentiments, htok]
  decide

theorem tokenizer_whitespace_only_tokens_witness :
    tokenize " " = ["", ""] ∧
    getWordSentiments " " = [{ word := "", sentiment := .neutral, score := 0 },
      { word := "", sentiment := .neutral, score := 0 }] ∧
    tokenize "" = [""] ∧
    getWordSentiments "" = [{ word := "", sentiment := .neutral, score := 0 }] :=
  tokenizer_whitespace_only_tokens " " (by decide) (by decide)

/-- C6 counterexample: the tokenizer does not remove every character that
is not a letter, digit, or whitespace — JavaScript `\w` also matches the
underscore, which is kept and appears inside tokens. -/
theorem tokenizer_keeps_underscore :
    tokenize "a_b" = ["a_b"] ∧ tokenize "a_b" ≠ ["ab"] ∧
    '_' ∈ ("a_b" : String).data ∧
    '_'.isAlpha = false ∧ '_'.isDigit = false ∧ '_'.isWhitespace = false := by
  decide

/-- C6 (amended): the tokenizer lowercases the input, removes every
character that is not a letter, digit, underscore, or whitespace, and
splits on whitespace runs, keeping order and duplicates; every character
of every token is an alphanumeric character or an underscore, never
whitespace and never an uppercase letter. -/
theorem tokenizer_token_characters (s : String) :
    (∀ w ∈ tokenize s, ∀ c ∈ w.data,
      (c.isAlphanum = true ∨ c = '_') ∧ c.isWhitespace = false ∧ c.isUpper = false) ∧
    tokenize "GoOd_DAY!! good good" = ["good_day", "good", "good"] := by
  constructor
  · intro w hw c hc
    obtain ⟨p, hp, rfl⟩ := List.mem_map.mp hw
    have hc' : c ∈ p := hc
    obtain ⟨hmem, hws⟩ := splitWs_mem_chars _ p hp c hc'
    have hkeep : keepChar c = true := List.of_mem_filter hmem
    have hmap : c ∈ s.data.map Char.toLower := List.mem_of_mem_filter hmem
    obtain ⟨c0, _, rfl⟩ := List.mem_map.mp hmap
    refine ⟨?_, hws, isUpper_toLower c0⟩
    simp only [keepChar, Bool.or_eq_true] at hkeep
    rcases hkeep with (h | h) | h
    · exact Or.inl h
    · exact Or.inr (by simpa using h)
    · simp [h] at hws
  · decide

theorem tokenizer_token_characters_witness :
    (('_'.isAlphanum = true ∨ '_' = '_') ∧ '_'.isWhitespace = false ∧ '_'.isUpper = false) ∧
    (('g'.isAlphanum = true ∨ 'g' = '_') ∧ 'g'.isWhitespace = false ∧ 'g'.isUpper = false) :=
  ⟨(tokenizer_token_characters "a_b").1 "a_b" (by decide) '_' (by decide),
   (tokenizer_token_characters "G").1 "g" (by decide) 'g' (by decide)⟩

/-- C7 counterexample: for the empty input, `classify` reports
`wordCount = 0` from its empty-input branch without tokenizing, while
`tagWords` still tokenizes and returns one tag, so the claimed equality
fails on that input. -/
theorem tagWords_length_vs_wordCount_empty :
    (getWordSentiments "").length = 1 ∧ (analyzeSentiment "").wordCount = 0 := by
  constructor
  · decide
  · simp [analyzeSentiment, trimmedIsEmpty]

/-- C7 (amended): for every input whose trimmed text is non-empty, the
length of `tagWords` equals the `wordCount` reported by `classify` (its
token count), and the number of positive (respectively negative) tags
equals the `positiveCount` (respectively `negativeCount`) used by
`classify`. -/
theorem tagWords_counts_agree (s : String) (h : trimmedIsEmpty s = false) :
    (getWordSentiments s).length = (analyzeSentiment s).wordCount ∧
    (getWordSentiments s).countP (fun t => decide (t.sentiment = .positive)) =
      (sentimentCounts (tokenize s)).1 ∧
    (getWordSentiments s).countP (fun t => decide (t.sentiment = .negative)) =
      (sentimentCounts (tokenize s)).2.1 := by
  have hwc : (analyzeSentiment s).wordCount = (tokenize s).length := by
    rw [analyzeSentiment_of_not_empty s h]
  refine ⟨by simp [getWordSentiments, hwc], ?_, ?_⟩
  · rw [getWordSentiments, List.countP_map, sentimentCounts_eq]
    refine List.countP_congr fun w _ => ?_
    by_cases hp : w ∈ positiveWords <;> by_cases hn : w ∈ negativeWords <;>
      by_cases hu : w ∈ neutralWords <;> simp [hitPos, hp, hn, hu, Function.comp]
  · rw [getWordSentiments, List.countP_map, sentimentCounts_eq]
    refine List.countP_congr fun w _ => ?_
    by_cases hp : w ∈ positiveWords <;> by_cases hn : w ∈ negativeWords <;>
      by_cases hu : w ∈ neutralWords <;> simp [hitNeg, hp, hn, hu, Function.comp]

theorem tagWords_counts_agree_witness :
    (getWordSentiments "good bad").length = (analyzeSentiment "good bad").wordCount ∧
    (getWordSentiments "good bad").countP (fun t => decide (t.sentiment = .positive)) =
      (sentimentCounts (tokenize "good bad")).1 ∧
    (getWordSentiments "good bad").countP (fun t => decide (t.sentiment = .negative)) =
      (sentimentCounts (tokenize "good bad")).2.1 :=
  tagWords_counts_agree "good bad" (by decide)

/-- C8: `tagWords` returns exactly one tag per token, in token order with
duplicates preserved (the word components are exactly the token sequence),
and each tag is determined by the lexicon lookup chain: positive words get
sentiment positive and score `+1`, then negative words sentiment negative
and score `-1`, then neutral words sentiment neutral and score `0`, and
unmatched words are also tagged neutral with score `0`. -/
theorem tagWords_one_tag_per_token (s : String) :
    ((getWordSentiments s).map (fun t => t.word) = tokenize s) ∧
    ∀ t ∈ getWordSentiments s,
      (t.word ∈ positiveWords → t.sentiment = .positive ∧ t.score = 1) ∧
      (t.word ∉ positiveWords → t.word ∈ negativeWords →
        t.sentiment = .negative ∧ t.score = -1) ∧
      (t.word ∉ positiveWords → t.word ∉ negativeWords → t.word ∈ neutralWords →
        t.sentiment = .neutral ∧ t.score = 0) ∧
      (t.word ∉ positiveWords → t.word ∉ negativeWords → t.word ∉ neutralWords →
        t.sentiment = .neutral ∧ t.score = 0) := by
  constructor
  · rw [getWordSentiments, List.map_map]
    conv_rhs => rw [← List.map_id (tokenize s)]
    refine List.map_congr_left fun w _ => ?_
    by_cases hp : w ∈ positiveWords <;> by_cases hn : w ∈ negativeWords <;>
      by_cases hu : w ∈ neutralWords <;> simp [hp, hn, hu, Function.comp]
  · intro t ht
    obtain ⟨w, _, rfl⟩ := List.mem_map.mp ht
    by_cases hp : w ∈ positiveWords <;> by_cases hn : w ∈ negativeWords <;>
      by_cases hu : w ∈ neutralWords <;> simp [hp, hn, hu]

theorem tagWords_one_tag_per_token_witness :
    ({ word := "good", sentiment := .positive, score := 1 } : WordSentiment).sentiment
        = .positive ∧
      ({ word := "good", sentiment := .positive, score := 1 } : WordSentiment).score = 1 :=
  ((tagWords_one_tag_per_token "good").2
    { word := "good", sentiment := .positive, score := 1 } (by decide)).1 (by decide)

/-- C10: lexicon membership is tested positive-first, then negative, then
neutral, in both the counting loop of `classify` and the tagging of
`tagWords`: a word in the positive list increments only `positiveCount`
and is tagged positive even if it also occurs in the other lists, and so
on down the chain; each word changes at most one counter, by at most 1. -/
theorem lexicon_lookup_order (acc : ℕ × ℕ × ℕ) (w : String) (s : String) :
    (w ∈ positiveWords → countStep acc w = (acc.1 + 1, acc.2.1, acc.2.2)) ∧
    (w ∉ positiveWords → w ∈ negativeWords →
      countStep acc w = (acc.1, acc.2.1 + 1, acc.2.2)) ∧
    (w ∉ positiveWords → w ∉ negativeWords → w ∈ neutralWords →
      countStep acc w = (acc.1, acc.2.1, acc.2.2 + 1)) ∧
    (w ∉ positiveWords → w ∉ negativeWords → w ∉ neutralWords → countStep acc w = acc) ∧
    ((countStep acc w).1 + (countStep acc w).2.1 + (countStep acc w).2.2
      ≤ acc.1 + acc.2.1 + acc.2.2 + 1) ∧
    ∀ t ∈ getWordSentiments s,
      (t.word ∈ positiveWords → t.sentiment = .positive) ∧
      (t.word ∉ positiveWords → t.word ∈ negativeWords → t.sentiment = .negative) ∧
      (t.word ∉ positiveWords → t.word ∉ negativeWords → t.sentiment = .neutral) := by
  refine ⟨?_, ?_, ?_, ?_, ?_, ?_⟩
  · intro hp; simp [countStep, hp]
  · intro hp hn; simp [countStep, hp, hn]
  · intro hp hn hu; simp [countStep, hp, hn, hu]
  · intro hp hn hu; simp [countStep, hp, hn, hu]
  · by_cases hp : w ∈ positiveWords <;> by_cases hn : w ∈ negativeWords <;>
      by_cases hu : w ∈ neutralWords <;> simp [countStep, hp, hn, hu] <;> omega
  · intro t ht
    obtain ⟨v, _, rfl⟩ := List.mem_map.mp ht
    by_cases hp : v ∈ positiveWords <;> by_cases hn : v ∈ negativeWords <;>
      by_cases hu : v ∈ neutralWords <;> simp [hp, hn, hu]

theorem lexicon_lookup_order_witness :
    countStep (0, 0, 0) "good" = ((0, 0, 0).1 + 1, (0, 0, 0).2.1, (0, 0, 0).2.2) :=
  (lexicon_lookup_order (0, 0, 0) "good" "good").1 (by decide)

end SentimentAnalysis
